import Mathlib

/-!
Verification of the LSM storage-engine fragment (WiredTiger LSM headers and
JSON cursor formatting) together with the MongoDB index-key validation that
ships in the same repository.  C structs are embedded as Lean structures,
C functions as executable Lean functions; machine integers appear as `Nat`
with explicit bit operations where the code uses bit masks.
-/

namespace Mongo

/-! ## Embedding of src/include/lsm.h -/

/-- Session handles are external to the fragment; only their identity matters
for the structures embedded here. -/
structure WT_SESSION_IMPL where
  id : Nat
deriving Repr, DecidableEq

/-- Thread identifiers (pthread_t) are external; modelled by their identity. -/
structure PThread where
  tid : Nat
deriving Repr, DecidableEq

/-- Spinlocks are external synchronization objects; the embedding records one
lock word per lock. -/
structure WT_SPINLOCK where
  locked : Bool
deriving Repr, DecidableEq

/-- Condition variables are external; the embedding records the waiter count. -/
structure WT_CONDVAR where
  waiters : Nat
deriving Repr, DecidableEq

/-- Flag constants of `struct __wt_cursor_lsm` (src/include/lsm.h). -/
def WT_CLSM_ACTIVE : Nat := 0x01
def WT_CLSM_ITERATE_NEXT : Nat := 0x02
def WT_CLSM_ITERATE_PREV : Nat := 0x04
def WT_CLSM_MERGE : Nat := 0x08
def WT_CLSM_MINOR_MERGE : Nat := 0x10
def WT_CLSM_MULTIPLE : Nat := 0x20
def WT_CLSM_OPEN_READ : Nat := 0x40
def WT_CLSM_OPEN_SNAPSHOT : Nat := 0x80

/-- List of all cursor flag constants, in the order they are defined in the
header. -/
def clsmFlagList : List Nat :=
  [WT_CLSM_ACTIVE, WT_CLSM_ITERATE_NEXT, WT_CLSM_ITERATE_PREV, WT_CLSM_MERGE,
   WT_CLSM_MINOR_MERGE, WT_CLSM_MULTIPLE, WT_CLSM_OPEN_READ,
   WT_CLSM_OPEN_SNAPSHOT]

/-- Status-flag constants of `struct __wt_lsm_chunk` (src/include/lsm.h). -/
def WT_LSM_CHUNK_BLOOM : Nat := 0x01
def WT_LSM_CHUNK_MERGING : Nat := 0x02
def WT_LSM_CHUNK_ONDISK : Nat := 0x04
def WT_LSM_CHUNK_STABLE : Nat := 0x08

/-- Chunk metadata, embedding `struct __wt_lsm_chunk`.  Pointer-typed fields
(uri strings) are kept as strings, timestamps and counters as naturals. -/
structure WT_LSM_CHUNK where
  uri : String
  bloom_uri : String
  count : Nat
  size : Nat
  switch_txn : Nat
  id : Nat
  generation : Nat
  refcnt : Nat
  bloom_busy : Nat
  empty : Bool
  evicted : Bool
  flags : Nat
deriving Repr, DecidableEq

/-- Work-unit type constants (src/include/lsm.h). -/
def WT_LSM_WORK_BLOOM : Nat := 0x01
def WT_LSM_WORK_DROP : Nat := 0x02
def WT_LSM_WORK_FLUSH : Nat := 0x04
def WT_LSM_WORK_MERGE : Nat := 0x08
def WT_LSM_WORK_SWITCH : Nat := 0x10
def WT_LSM_WORK_FORCE : Nat := 0x10000
def WT_LSM_WORK_MASK : Nat := 0xffff

/-- List of the five work-unit type constants. -/
def lsmWorkTypes : List Nat :=
  [WT_LSM_WORK_SWITCH, WT_LSM_WORK_FLUSH, WT_LSM_WORK_BLOOM,
   WT_LSM_WORK_MERGE, WT_LSM_WORK_DROP]

/-- Embedding of `struct __wt_lsm_work_unit`: a typed maintenance request
bound to one tree (the queue linkage lives in the containing queue). -/
structure WT_LSM_WORK_UNIT where
  flags : Nat
  lsm_tree_id : Nat
deriving Repr, DecidableEq

/-- Embedding of `struct __wt_lsm_worker_args`. -/
structure WT_LSM_WORKER_ARGS where
  session : WT_SESSION_IMPL
  work_cond : WT_CONDVAR
  tid : PThread
  id : Nat
  flags : Nat
deriving Repr, DecidableEq

/-- Embedding of `struct __wt_lsm_manager` (src/include/lsm.h): three TAILQ
work queues, one spinlock per queue, one condition variable, and the worker
bookkeeping fields. -/
structure WT_LSM_MANAGER where
  switchqh : List WT_LSM_WORK_UNIT
  appqh : List WT_LSM_WORK_UNIT
  managerqh : List WT_LSM_WORK_UNIT
  switch_lock : WT_SPINLOCK
  app_lock : WT_SPINLOCK
  manager_lock : WT_SPINLOCK
  work_cond : WT_CONDVAR
  lsm_workers : Nat
  lsm_workers_max : Nat
  lsm_worker_cookies : List WT_LSM_WORKER_ARGS

/-- Maximum number of LSM worker threads (src/include/lsm.h). -/
def WT_LSM_MAX_WORKERS : Nat := 10

/-- Embedding of the worker-related part of `struct __wt_lsm_tree`: the
per-tree worker session and worker thread-id arrays are fixed-size arrays of
exactly `WT_LSM_MAX_WORKERS` slots, plus the checkpoint worker and the active
chunk array. -/
structure WT_LSM_TREE where
  name : String
  worker_sessions : Fin WT_LSM_MAX_WORKERS → Option WT_SESSION_IMPL
  worker_tids : Fin WT_LSM_MAX_WORKERS → Option PThread
  ckpt_session : Option WT_SESSION_IMPL
  ckpt_tid : Option PThread
  chunk : List WT_LSM_CHUNK
  last : Nat
  flags : Nat

/-- Number of worker sessions a tree currently records (occupied slots of the
`worker_sessions` array). -/
def WT_LSM_TREE.recordedWorkers (t : WT_LSM_TREE) : Nat :=
  (Finset.univ.filter fun i => (t.worker_sessions i).isSome).card

/-! ## Embedding of src/cursor/cur_json.c -/

/-- Behaviour of the C isprint test in the C locale: bytes 0x20 .. 0x7E are
printable.  Characters outside that range (including bytes at or above 0x80,
which a signed char passes to isprint as a negative value) are not. -/
def isprintByte (c : Nat) : Bool := 0x20 ≤ c && c ≤ 0x7E

/-- Hexadecimal digit byte produced by the unicode-escape tail of
__wt_json_unpack_char: bytes 'A' + (h - 10) for h at least 10, '0' + h
otherwise. -/
def hexDigitByte (h : Nat) : Nat :=
  if 10 ≤ h then 65 + (h - 10) else 48 + h

/-- Abbreviation character chosen by the switch statement inside
__wt_json_unpack_char; 0 models the '\0' sentinel meaning no abbreviation. -/
def jsonAbbrev (ch : Nat) : Nat :=
  if ch = 0x5C then 0x5C
  else if ch = 0x22 then 0x22
  else if ch = 0x0C then 0x66
  else if ch = 0x0A then 0x6E
  else if ch = 0x0D then 0x72
  else if ch = 0x09 then 0x74
  else 0

/-- Byte sequence written by the unicode-escape tail of __wt_json_unpack_char
when the buffer can hold all six bytes: backslash, 'u', '0', '0', and the two
hex digits of the byte value of ch. -/
def jsonUnicodeBytes (ch : Nat) : List Nat :=
  [0x5C, 0x75, 0x30, 0x30,
   hexDigitByte (((ch % 256) >>> 4) &&& 0xF), hexDigitByte ((ch % 256) &&& 0xF)]

/-- Embedding of __wt_json_unpack_char (src/cursor/cur_json.c).  The first
component is the size the C function returns; the second is the list of bytes
it stores through buf (the function writes either all reported bytes, when
bufsz is large enough, or none). -/
def __wt_json_unpack_char (ch : Nat) (bufsz : Nat) (force_unicode : Bool) :
    Nat × List Nat :=
  if !force_unicode then
    if isprintByte ch && ch != 0x5C && ch != 0x22 then
      (1, if 1 ≤ bufsz then [ch] else [])
    else if jsonAbbrev ch ≠ 0 then
      (2, if 2 ≤ bufsz then [0x5C, jsonAbbrev ch] else [])
    else
      (6, if 6 ≤ bufsz then jsonUnicodeBytes ch else [])
  else
    (6, if 6 ≤ bufsz then jsonUnicodeBytes ch else [])

/-- Size that __wt_json_unpack_char reports, as a function of the character
and the force_unicode flag alone. -/
def jsonUnpackCharLen (ch : Nat) (force_unicode : Bool) : Nat :=
  if !force_unicode then
    if isprintByte ch && ch != 0x5C && ch != 0x22 then 1
    else if jsonAbbrev ch ≠ 0 then 2
    else 6
  else 6

/-- Length printed by snprintf for a PRId64 conversion. -/
def snprintfI64Len (v : Int) : Nat := (toString v).length

/-- Value printed when a PRId64 conversion is applied to the unsigned 64-bit
field pv.u.u, as __json_unpack_put does for the unsigned pack types. -/
def asI64 (v : Nat) : Int :=
  if v % 2 ^ 64 < 2 ^ 63 then ((v % 2 ^ 64 : Nat) : Int)
  else ((v % 2 ^ 64 : Nat) : Int) - 2 ^ 64

/-- Pack values as delivered by the external __pack_next iterator.  Only type
tags handled by __json_unpack_put occur.  For the string types the character
list is the sequence of characters the loop visits (pv->size characters for
type 's' or when havesize is set, the characters before the NUL otherwise);
for the item types it is the byte sequence of the WT_ITEM. -/
inductive WT_PACK_VALUE where
  | padx
  | str (chars : List Nat)
  | item (data : List Nat)
  | ival (v : Int)
  | uval (v : Nat)
deriving Repr, DecidableEq

/-- Embedding of a WT_CONFIG_ITEM field name as printed by the leading
snprintf conversion of __json_unpack_put (config names contain no NUL). -/
structure WT_CONFIG_ITEM where
  str : List Nat
deriving Repr, DecidableEq

/-- Character loop of __json_unpack_put: accumulate the size reported by
__wt_json_unpack_char for every character, updating the remaining buffer size
exactly the way the code does. -/
def jsonPutChars (force_unicode : Bool) : List Nat → Nat → Nat → Nat × Nat
  | [], s, bufsz => (s, bufsz)
  | c :: rest, s, bufsz =>
      let n := (__wt_json_unpack_char c bufsz force_unicode).1
      if n > bufsz then jsonPutChars force_unicode rest (s + n) 0
      else jsonPutChars force_unicode rest (s + n) (bufsz - n)

/-- Embedding of __json_unpack_put (src/cursor/cur_json.c): the size of one
pack value as formatted for JSON.  The result is the value the C function
returns; the bufsz parameter is consumed exactly as the code consumes it (the
leading name conversion, the opening quote, then the characters), and the
result is proved independent of bufsz below. -/
def __json_unpack_put (pv : WT_PACK_VALUE) (name : WT_CONFIG_ITEM)
    (bufsz : Nat) : Nat :=
  let s := name.str.length + 5
  let bufsz1 := if s ≤ bufsz then bufsz - s else 0
  match pv with
  | .padx => 0
  | .str chars =>
      let bufsz2 := if 0 < bufsz1 then bufsz1 - 1 else bufsz1
      (jsonPutChars false chars (s + 2) bufsz2).1
  | .item data =>
      let bufsz2 := if 0 < bufsz1 then bufsz1 - 1 else bufsz1
      (jsonPutChars true data (s + 2) bufsz2).1
  | .ival v => s + snprintfI64Len v
  | .uval v => s + snprintfI64Len (asI64 v)

/-- Accounting loop of __json_struct_size (src/cursor/cur_json.c): two bytes
for each ",\n" separator between fields, plus the sizing call of
__json_unpack_put with a null buffer of size 0. -/
def jsonStructSizeGo : List (WT_PACK_VALUE × WT_CONFIG_ITEM) → Bool → Nat
  | [], _ => 0
  | (pv, name) :: rest, needcr =>
      (if needcr then 2 else 0) + __json_unpack_put pv name 0 +
        jsonStructSizeGo rest true

/-- Embedding of __json_struct_size: the JSON-formatted size of a packed byte
string whose pack iteration yields the given fields. -/
def __json_struct_size (fields : List (WT_PACK_VALUE × WT_CONFIG_ITEM)) :
    Nat :=
  jsonStructSizeGo fields false

/-- Buffer-size accounting loop of __json_struct_unpackv
(src/cursor/cur_json.c).  The Boolean records whether every WT_ASSERT held:
jbufsize >= 3 before each ",\n" separator and jsize <= jbufsize after each
field; the Nat is the final jbufsize checked by the last assertion. -/
def jsonStructUnpackvGo :
    List (WT_PACK_VALUE × WT_CONFIG_ITEM) → Bool → Nat → Bool × Nat
  | [], _, jbufsize => (true, jbufsize)
  | (pv, name) :: rest, needcr, jbufsize =>
      let ok1 := !needcr || decide (3 ≤ jbufsize)
      let jb := if needcr then jbufsize - 2 else jbufsize
      let jsize := __json_unpack_put pv name jb
      let ok2 := decide (jsize ≤ jb)
      let next := jsonStructUnpackvGo rest true (jb - jsize)
      (ok1 && ok2 && next.1, next.2)

/-- Embedding of __json_struct_unpackv applied to a fresh buffer of the given
size (needcr starts false). -/
def __json_struct_unpackv (fields : List (WT_PACK_VALUE × WT_CONFIG_ITEM))
    (jbufsize : Nat) : Bool × Nat :=
  jsonStructUnpackvGo fields false jbufsize

/-- Embedding of __wt_json_alloc_unpack (src/cursor/cur_json.c): compute the
needed size with __json_struct_size, allocate needed + 1 bytes, and unpack
into that buffer. -/
def __wt_json_alloc_unpack (fields : List (WT_PACK_VALUE × WT_CONFIG_ITEM)) :
    Bool × Nat :=
  __json_struct_unpackv fields (__json_struct_size fields + 1)

/-! ## Embedding of src/mongo/db/catalog/index_key_validate.cpp -/

/-- Error codes referenced by the validation code. -/
inductive ErrorCodes where
  | OK
  | CannotCreateIndex
  | TypeMismatch
  | BadValue
  | FailedToParse
deriving Repr, DecidableEq

/-- Return sites of validateKeyPattern, one constructor per message string
the code builds. -/
inductive KeyPatternError where
  | tooLarge
  | emptyKey
  | unknownPlugin
  | nanValue
  | zeroValue
  | badType
  | pluginMismatch
  | emptyFieldName
  | illegalFts
  | emptyComponent
  | dollarField
deriving Repr, DecidableEq

/-- Embedding of mongo::Status as validateKeyPattern produces it: OK, or an
error code with the reason of the failing check. -/
inductive Status where
  | ok
  | error (code : ErrorCodes) (reason : KeyPatternError)
deriving Repr, DecidableEq

/-- Test of Status::isOK(). -/
def Status.isOK : Status → Bool
  | .ok => true
  | .error _ _ => false

/-- Shallow model of a BSON value, carrying exactly what validateKeyPattern
inspects: a number is characterized by the two tests the code performs
(std::isnan and comparison with 0.0), a string carries its text, and any
other type carries only its type name. -/
inductive BSONValue where
  | num (nan : Bool) (zero : Bool)
  | str (s : String)
  | other (typeName : String)
deriving Repr, DecidableEq

/-- One element of a BSON object: a field name and a value. -/
structure BSONElement where
  fieldName : String
  value : BSONValue
deriving Repr, DecidableEq

/-- Behaviour of BSONElement::valuestrsafe(): the string value for a string
element, the empty string for every other type. -/
def BSONElement.valuestrsafe (e : BSONElement) : String :=
  match e.value with
  | .str s => s
  | _ => ""

/-- Shallow model of a BSONObj: its elements in order plus the serialized
object size in bytes (objsize), carried as data because the byte-level BSON
encoding is external to this fragment. -/
structure BSONObj where
  objsize : Nat
  elements : List BSONElement
deriving Repr, DecidableEq

/-- Behaviour of BSONObj::isEmpty(): no elements. -/
def BSONObj.isEmpty (o : BSONObj) : Bool := o.elements.isEmpty

/-- Modelled from the spec: the known index plugin names recognized by
IndexNames::isKnownName (src/mongo/db/index_names.cpp is not part of this
fragment; the claim text calls these the known index plugin names, and
"text" is the one validateKeyPattern compares against). -/
def IndexNames.knownNames : List String :=
  ["2d", "2dsphere", "geoHaystack", "hashed", "text"]

/-- Name of the text index plugin (IndexNames::TEXT). -/
def IndexNames.TEXT : String := "text"

/-- Modelled from the spec: IndexNames::isKnownName membership test. -/
def IndexNames.isKnownName (name : String) : Bool :=
  IndexNames.knownNames.contains name

/-- Modelled from the spec: IndexNames::findPluginName (not part of this
fragment) yields the value of the first string-typed element of the key
pattern, and the empty string (the btree plugin name) when no element is a
string. -/
def IndexNames.findPluginName (key : BSONObj) : String :=
  match key.elements.findSome? (fun e =>
      match e.value with
      | .str s => some s
      | _ => none) with
  | some s => s
  | none => ""

/-- Dotted-path splitting as FieldRef performs it: the empty name has no
components; otherwise the name is split at every '.', keeping empty
components. -/
def splitDotted : List Char → List (List Char)
  | [] => [[]]
  | c :: rest =>
      if c = '.' then [] :: splitDotted rest
      else
        match splitDotted rest with
        | [] => [c] :: []
        | p :: ps => (c :: p) :: ps

/-- Components of a FieldRef built from a field name. -/
def FieldRef.parts (fieldName : String) : List (List Char) :=
  if fieldName.data = [] then [] else splitDotted fieldName.data

/-- Component loop of validateKeyPattern: reject empty components and
'$'-prefixed components unless the component might be part of a DBRef
($db, $id or $ref at a non-first position). -/
def validateKeyParts : List (List Char) → Nat → Status
  | [], _ => .ok
  | part :: rest, i =>
      if part.isEmpty then
        .error .CannotCreateIndex .emptyComponent
      else if part.head? ≠ some '$' then
        validateKeyParts rest (i + 1)
      else if i ≠ 0 ∧
          (part = "$db".data ∨ part = "$id".data ∨ part = "$ref".data) then
        validateKeyParts rest (i + 1)
      else
        .error .CannotCreateIndex .dollarField

/-- Field-name checks of one iteration of the validateKeyPattern loop, after
the value checks: empty field path, the "$**" text-index exception, the
"_fts" restriction, then the component loop. -/
def validateKeyField (e : BSONElement) : Status :=
  let keyField := FieldRef.parts e.fieldName
  if keyField.length = 0 then
    .error .CannotCreateIndex .emptyFieldName
  else if e.fieldName = "$**" ∧ e.valuestrsafe = IndexNames.TEXT then
    .ok
  else if e.fieldName = "_fts" ∧ e.valuestrsafe ≠ IndexNames.TEXT then
    .error .CannotCreateIndex .illegalFts
  else
    validateKeyParts keyField 0

/-- Value checks of one iteration of the validateKeyPattern loop (NaN, zero,
type, plugin agreement), followed by the field-name checks. -/
def validateKeyElement (pluginName : String) (e : BSONElement) : Status :=
  match e.value with
  | .num nan zero =>
      if nan then .error .CannotCreateIndex .nanValue
      else if zero then .error .CannotCreateIndex .zeroValue
      else validateKeyField e
  | .str s =>
      if pluginName ≠ s then .error .CannotCreateIndex .pluginMismatch
      else validateKeyField e
  | .other _ => .error .CannotCreateIndex .badType

/-- Element loop of validateKeyPattern: the first failing check returns its
Status, otherwise iteration continues. -/
def validateKeyElements (pluginName : String) : List BSONElement → Status
  | [] => .ok
  | e :: rest =>
      let s := validateKeyElement pluginName e
      if s.isOK then validateKeyElements pluginName rest else s

/-- Embedding of validateKeyPattern
(src/mongo/db/catalog/index_key_validate.cpp). -/
def validateKeyPattern (key : BSONObj) : Status :=
  if key.objsize > 2048 then .error .CannotCreateIndex .tooLarge
  else if key.isEmpty then .error .CannotCreateIndex .emptyKey
  else
    let pluginName := IndexNames.findPluginName key
    if pluginName.length ≠ 0 ∧ IndexNames.isKnownName pluginName = false then
      .error .CannotCreateIndex .unknownPlugin
    else
      validateKeyElements pluginName key.elements

/-- Claimed '$'-component rule, read off the claim text: a component may
start with '$' only as $db, $id or $ref at a non-first position. -/
def claimedPartsDollarOK : List (List Char) → Nat → Bool
  | [], _ => true
  | p :: rest, i =>
      (p.head? != some '$' ||
        (decide (i ≠ 0) &&
          (p == "$db".data || p == "$id".data || p == "$ref".data))) &&
      claimedPartsDollarOK rest (i + 1)

/-- Claimed field-path rule, read off the claim text: either the exact field
name "$**" with value "text", or a non-empty path with no empty component,
"_fts" only with value "text", and the '$'-component rule. -/
def claimedFieldOK (e : BSONElement) : Bool :=
  if e.fieldName = "$**" ∧ e.valuestrsafe = "text" then true
  else
    let parts := FieldRef.parts e.fieldName
    !parts.isEmpty &&
    parts.all (fun p => !p.isEmpty) &&
    (e.fieldName != "_fts" || e.valuestrsafe == "text") &&
    claimedPartsDollarOK parts 0

/-- Predicate of claim C5 exactly as stated: size at most 2048 bytes,
non-empty, every element a number that is neither NaN nor 0 or a string equal
to a single known index plugin name shared by all string elements, and the
field-path rules. -/
def claimedKeyPatternOK (key : BSONObj) : Bool :=
  decide (key.objsize ≤ 2048) &&
  !key.isEmpty &&
  (key.elements.all fun e =>
    match e.value with
    | .num nan zero => !nan && !zero
    | .str s =>
        IndexNames.isKnownName s &&
          (key.elements.all fun e2 =>
            match e2.value with
            | .str s2 => s2 == s
            | _ => true)
    | .other _ => false) &&
  key.elements.all claimedFieldOK

/-- Value rule shared by the amended claim and the per-element checks of the
code: a number that is neither NaN nor 0, or a string equal to the plugin
name; any other type is rejected. -/
def elemValueOK (pluginName : String) (e : BSONElement) : Bool :=
  match e.value with
  | .num nan zero => !nan && !zero
  | .str s => pluginName == s
  | .other _ => false

/-- Amended predicate: as claimed, except that the shared string value of the
string elements is the object's plugin name (the value of its first string
element), which must be a known plugin name only when it is non-empty. -/
def amendedKeyPatternOK (key : BSONObj) : Bool :=
  decide (key.objsize ≤ 2048) &&
  !key.isEmpty &&
  (let p := IndexNames.findPluginName key
   (p == "" || IndexNames.isKnownName p) && key.elements.all (elemValueOK p)) &&
  key.elements.all claimedFieldOK

/-! ## Spec model of the merged LSM cursor (snapshot isolation) -/

/-- Modelled from the spec: the merged-cursor implementation (cur_lsm.c) is
not part of this fragment.  One record of a chunk: its key, the transaction
id of the write that produced it, and its value (none is a tombstone). -/
structure LsmEntry where
  key : Nat
  txn : Nat
  value : Option Nat
deriving Repr, DecidableEq

/-- Modelled from the spec: a chunk as a reading cursor sees it, with
switch_txn the largest transaction id that may write into the chunk. -/
structure SnapChunk where
  switch_txn : Nat
  entries : List LsmEntry
deriving Repr, DecidableEq

/-- Well-formedness from the spec: switch_txn bounds the writer of every
record in the chunk. -/
def chunkWF (c : SnapChunk) : Prop :=
  ∀ e ∈ c.entries, e.txn ≤ c.switch_txn

instance (c : SnapChunk) : Decidable (chunkWF c) :=
  inferInstanceAs (Decidable (∀ e ∈ c.entries, e.txn ≤ c.switch_txn))

/-- Modelled from the spec: records visible at snapshot T.  A sub-cursor on
a chunk whose switch_txn is at most T is sufficient without per-record
checks; on newer chunks every record is checked against the snapshot
(txn_id ≤ T). -/
def visibleEntries (T : Nat) (c : SnapChunk) : List LsmEntry :=
  if c.switch_txn ≤ T then c.entries
  else c.entries.filter fun e => decide (e.txn ≤ T)

/-- Modelled from the spec: point lookup at snapshot T.  Sub-cursors are
consulted newest → oldest (the active array is ordered oldest first); the
first chunk holding a visible record for the key wins, and a tombstone
yields NOT_FOUND. -/
def clsmSearch (T : Nat) (chunks : List SnapChunk) (k : Nat) : Option Nat :=
  match chunks.reverse.findSome?
      (fun c => (visibleEntries T c).find? fun e => e.key == k) with
  | none => none
  | some e => e.value

/-- Keys of all records visible at snapshot T. -/
def visibleKeys (T : Nat) (chunks : List SnapChunk) : List Nat :=
  chunks.flatMap fun c => (visibleEntries T c).map LsmEntry.key

/-- Least visible key strictly greater than k. -/
def minAbove (T : Nat) (chunks : List SnapChunk) (k : Nat) : Option Nat :=
  ((visibleKeys T chunks).filter fun x => decide (k < x)).min?

/-- Greatest visible key strictly smaller than k. -/
def maxBelow (T : Nat) (chunks : List SnapChunk) (k : Nat) : Option Nat :=
  ((visibleKeys T chunks).filter fun x => decide (x < k)).max?

/-- Modelled from the spec: forward iteration step, skipping tombstones.
The fuel bounds the number of distinct keys that can be skipped. -/
def clsmNextGo (T : Nat) (chunks : List SnapChunk) :
    Nat → Nat → Option (Nat × Nat)
  | 0, _ => none
  | fuel + 1, k =>
      match minAbove T chunks k with
      | none => none
      | some k2 =>
          match clsmSearch T chunks k2 with
          | some v => some (k2, v)
          | none => clsmNextGo T chunks fuel k2

/-- Cursor next at snapshot T from key k: the nearest visible key above k
whose merged value is not a tombstone, with that value. -/
def clsmNext (T : Nat) (chunks : List SnapChunk) (k : Nat) :
    Option (Nat × Nat) :=
  clsmNextGo T chunks (visibleKeys T chunks).length k

/-- Modelled from the spec: backward iteration step, skipping tombstones. -/
def clsmPrevGo (T : Nat) (chunks : List SnapChunk) :
    Nat → Nat → Option (Nat × Nat)
  | 0, _ => none
  | fuel + 1, k =>
      match maxBelow T chunks k with
      | none => none
      | some k2 =>
          match clsmSearch T chunks k2 with
          | some v => some (k2, v)
          | none => clsmPrevGo T chunks fuel k2

/-- Cursor prev at snapshot T from key k. -/
def clsmPrev (T : Nat) (chunks : List SnapChunk) (k : Nat) :
    Option (Nat × Nat) :=
  clsmPrevGo T chunks (visibleKeys T chunks).length k

/-- Concrete two-chunk store used to instantiate the snapshot-isolation
theorem: an old chunk switched out at txn 5 and a newer one at txn 10. -/
def snapDemoChunks : List SnapChunk :=
  [⟨5, [⟨7, 3, some 42⟩]⟩, ⟨10, [⟨7, 6, some 99⟩]⟩]

/-! ## Spec model of the chunk lifecycle (generations and ids) -/

/-- Modelled from the spec: the chunk fields the lifecycle transitions
update (the switch and merge routines are not part of this fragment). -/
structure MetaChunk where
  id : Nat
  generation : Nat
deriving Repr, DecidableEq

/-- Modelled from the spec: tree state as the lifecycle sees it — the active
chunk array ordered oldest → newest plus the last allocated id. -/
structure TreeState where
  chunks : List MetaChunk
  last : Nat
deriving Repr, DecidableEq

/-- Generation given to a merge output: the maximum input generation plus
one. -/
def mergeOutputGen (inputs : List MetaChunk) : Nat :=
  (inputs.map MetaChunk.generation).foldr Nat.max 0 + 1

/-- Modelled from the spec: a switch appends a fresh generation-0 chunk with
a newly allocated id. -/
def applySwitch (s : TreeState) : TreeState :=
  ⟨s.chunks ++ [⟨s.last + 1, 0⟩], s.last + 1⟩

/-- Modelled from the spec: a merge of the contiguous range [i, i+len)
replaces the inputs in place with one output chunk carrying a fresh id and
generation max(inputs) + 1. -/
def applyMerge (s : TreeState) (i len : Nat) : TreeState :=
  ⟨s.chunks.take i ++ [⟨s.last + 1,
      mergeOutputGen ((s.chunks.drop i).take len)⟩] ++
    s.chunks.drop (i + len), s.last + 1⟩

/-- Modelled from the spec: lifecycle transitions that change the active
array's ids or generations (flush, bloom and drop leave both alone). -/
inductive TreeStep : TreeState → TreeState → Prop where
  | switch (s : TreeState) : TreeStep s (applySwitch s)
  | merge (s : TreeState) (i len : Nat) (hlen : 2 ≤ len)
      (hrange : i + len ≤ s.chunks.length) :
      TreeStep s (applyMerge s i len)

/-- Tree states reachable from the empty tree. -/
inductive TreeReachable : TreeState → Prop where
  | init : TreeReachable ⟨[], 0⟩
  | step {s t : TreeState} : TreeReachable s → TreeStep s t →
      TreeReachable t

/-- Generation monotonicity across the active array, as claim C2 states
it. -/
def genMonotone (s : TreeState) : Prop :=
  List.Chain' (fun a b => a.generation ≤ b.generation) s.chunks


/-! ## Theorems -/

/-- The size reported by __wt_json_unpack_char does not depend on the buffer
or its size. -/
theorem unpack_char_fst_eq (ch b : Nat) (f : Bool) :
    (__wt_json_unpack_char ch b f).1 = jsonUnpackCharLen ch f := by
  unfold __wt_json_unpack_char jsonUnpackCharLen
  split
  · split
    · rfl
    · split <;> rfl
  · rfl

/-- Bytes written by __wt_json_unpack_char: all of them when the buffer can
hold the reported size, none otherwise. -/
theorem unpack_char_snd_len (ch b : Nat) (f : Bool) :
    (__wt_json_unpack_char ch b f).2.length =
      if (__wt_json_unpack_char ch b f).1 ≤ b then
        (__wt_json_unpack_char ch b f).1
      else 0 := by
  unfold __wt_json_unpack_char
  split
  · split
    · split <;> simp_all
    · split
      · split <;> simp_all
      · split <;> simp_all [jsonUnicodeBytes]
  · split <;> simp_all [jsonUnicodeBytes]

/-- Accumulated size of the character loop of __json_unpack_put is
independent of the remaining buffer size. -/
theorem jsonPutChars_fst_indep (f : Bool) (cs : List Nat) :
    ∀ s b b', (jsonPutChars f cs s b).1 = (jsonPutChars f cs s b').1 := by
  induction cs with
  | nil => intro s b b'; rfl
  | cons c rest ih =>
      intro s b b'
      simp only [jsonPutChars, unpack_char_fst_eq]
      split <;> split <;> apply ih

/-- Size reported by __json_unpack_put is independent of the buffer size: the
sizing call with a null buffer computes the same size as any writing call. -/
theorem json_unpack_put_bufsz_indep (pv : WT_PACK_VALUE)
    (name : WT_CONFIG_ITEM) (b : Nat) :
    __json_unpack_put pv name b = __json_unpack_put pv name 0 := by
  cases pv <;> simp only [__json_unpack_put] <;>
    first
      | rfl
      | apply jsonPutChars_fst_indep

/-- Characterization of the abbreviation sentinel: it is nonzero exactly for
the six characters the switch statement abbreviates. -/
theorem jsonAbbrev_ne_zero_iff (ch : Nat) :
    jsonAbbrev ch ≠ 0 ↔
      ch = 0x5C ∨ ch = 0x22 ∨ ch = 0x0C ∨ ch = 0x0A ∨ ch = 0x0D ∨ ch = 0x09 := by
  unfold jsonAbbrev
  split_ifs <;> simp_all

/-- Trichotomy of the reported size of __wt_json_unpack_char. -/
theorem jsonUnpackCharLen_cases (ch : Nat) (f : Bool) :
    jsonUnpackCharLen ch f = 1 ∨ jsonUnpackCharLen ch f = 2 ∨
      jsonUnpackCharLen ch f = 6 := by
  unfold jsonUnpackCharLen
  split_ifs <;> simp

/-- The reported size is 1 exactly for printable characters other than
backslash and double quote with force_unicode off. -/
theorem jsonUnpackCharLen_eq_one_iff (ch : Nat) (f : Bool) :
    jsonUnpackCharLen ch f = 1 ↔
      f = false ∧ isprintByte ch = true ∧ ch ≠ 0x5C ∧ ch ≠ 0x22 := by
  cases f with
  | true => simp [jsonUnpackCharLen]
  | false =>
      simp only [jsonUnpackCharLen, Bool.not_false, if_true, isprintByte,
        Bool.and_eq_true, bne_iff_ne, decide_eq_true_eq,
        jsonAbbrev_ne_zero_iff, eq_self_iff_true, true_and]
      split_ifs with h1 h2 <;> omega

/-- The reported size is 2 exactly for the six abbreviated characters with
force_unicode off. -/
theorem jsonUnpackCharLen_eq_two_iff (ch : Nat) (f : Bool) :
    jsonUnpackCharLen ch f = 2 ↔
      f = false ∧
        (ch = 0x5C ∨ ch = 0x22 ∨ ch = 0x0C ∨ ch = 0x0A ∨ ch = 0x0D ∨
          ch = 0x09) := by
  cases f with
  | true => simp [jsonUnpackCharLen]
  | false =>
      simp only [jsonUnpackCharLen, Bool.not_false, if_true, isprintByte,
        Bool.and_eq_true, bne_iff_ne, decide_eq_true_eq,
        jsonAbbrev_ne_zero_iff, eq_self_iff_true, true_and]
      split_ifs with h1 h2 <;> omega

/-! ### Claim C3 -/

/-- Helper for C3: starting from any separator state, unpacking into a buffer
one byte larger than the computed size satisfies every assertion and ends with
exactly one byte (the NUL terminator) left. -/
theorem json_struct_unpackv_exact
    (fields : List (WT_PACK_VALUE × WT_CONFIG_ITEM)) :
    ∀ needcr, jsonStructUnpackvGo fields needcr
        (jsonStructSizeGo fields needcr + 1) = (true, 1) := by
  induction fields with
  | nil => intro needcr; rfl
  | cons fld rest ih =>
      intro needcr
      obtain ⟨pv, name⟩ := fld
      simp only [jsonStructSizeGo, jsonStructUnpackvGo,
        json_unpack_put_bufsz_indep]
      set P := __json_unpack_put pv name 0 with hP
      set R := jsonStructSizeGo rest true with hR
      have ihR : jsonStructUnpackvGo rest true (R + 1) = (true, 1) := ih true
      cases needcr
      · simp only [Bool.not_false, Bool.true_or, Bool.true_and, if_neg,
          Bool.false_eq_true, ite_false, zero_add]
        have e2 : P + R + 1 - P = R + 1 := by omega
        rw [e2, ihR]
        simp only [Prod.mk.injEq, Bool.and_eq_true, decide_eq_true_eq,
          and_true, Bool.and_true]
        omega
      · simp only [Bool.not_true, Bool.false_or, ite_true]
        have e1 : 2 + P + R + 1 - 2 = P + R + 1 := by omega
        have e2 : P + R + 1 - P = R + 1 := by omega
        rw [e1, e2, ihR]
        have h3 : 3 ≤ 2 + P + R + 1 := by omega
        have h4 : P ≤ P + R + 1 := by omega
        simp [h3, h4]

/-- C3: for every session, input buffer, pack format and name list (modelled
by the field sequence the pack iterator yields), the byte count computed by
__json_struct_size equals the byte count __json_struct_unpackv accounts when
writing into a buffer of that count plus one, so in __wt_json_alloc_unpack
the assertions jbufsize >= 3 before each separator, jsize <= jbufsize after
each field, and jbufsize == 1 at the end of unpacking all hold, including for
formats containing the padding type 'x'. -/
theorem json_alloc_unpack_assertions_hold
    (fields : List (WT_PACK_VALUE × WT_CONFIG_ITEM)) :
    __wt_json_alloc_unpack fields = (true, 1) :=
  json_struct_unpackv_exact fields false

/-! ### Claim C4 -/

/-- C4: __wt_json_unpack_char returns exactly 1 (printable character other
than backslash and double quote, force_unicode off), 2 (one of the six
abbreviated escapes, force_unicode off) or 6 (unicode escape, always when
force_unicode is on); the return value depends only on the character and
force_unicode, never on the buffer size; and exactly the reported number of
bytes is written when the buffer can hold them, none otherwise. -/
theorem json_unpack_char_spec (ch bufsz bufsz' : Nat) (force_unicode : Bool) :
    ((__wt_json_unpack_char ch bufsz force_unicode).1 = 1 ∨
     (__wt_json_unpack_char ch bufsz force_unicode).1 = 2 ∨
     (__wt_json_unpack_char ch bufsz force_unicode).1 = 6) ∧
    ((__wt_json_unpack_char ch bufsz force_unicode).1 = 1 ↔
      force_unicode = false ∧ isprintByte ch = true ∧ ch ≠ 0x5C ∧
        ch ≠ 0x22) ∧
    ((__wt_json_unpack_char ch bufsz force_unicode).1 = 2 ↔
      force_unicode = false ∧
        (ch = 0x5C ∨ ch = 0x22 ∨ ch = 0x0C ∨ ch = 0x0A ∨ ch = 0x0D ∨
          ch = 0x09)) ∧
    (force_unicode = false ∨
      (__wt_json_unpack_char ch bufsz force_unicode).1 = 6) ∧
    (__wt_json_unpack_char ch bufsz force_unicode).1 =
      (__wt_json_unpack_char ch bufsz' force_unicode).1 ∧
    (__wt_json_unpack_char ch bufsz force_unicode).2.length =
      (if (__wt_json_unpack_char ch bufsz force_unicode).1 ≤ bufsz then
        (__wt_json_unpack_char ch bufsz force_unicode).1
      else 0) := by
  rw [unpack_char_fst_eq, unpack_char_fst_eq]
  refine ⟨jsonUnpackCharLen_cases ch force_unicode,
    jsonUnpackCharLen_eq_one_iff ch force_unicode,
    jsonUnpackCharLen_eq_two_iff ch force_unicode, ?_, rfl, ?_⟩
  · cases force_unicode
    · exact Or.inl rfl
    · exact Or.inr rfl
  · rw [← unpack_char_fst_eq ch bufsz force_unicode]
    exact unpack_char_snd_len ch bufsz force_unicode

/-! ### Claim C5 -/

/-- Status::isOK() holds on OK. -/
theorem Status.isOK_ok : Status.ok.isOK = true := rfl

/-- Status::isOK() fails on every error. -/
theorem Status.isOK_error (c : ErrorCodes) (r : KeyPatternError) :
    (Status.error c r).isOK = false := rfl

/-- Booleans that are not true are false. -/
theorem bool_eq_false {b : Bool} (h : ¬ b = true) : b = false := by
  cases b
  · rfl
  · exact absurd rfl h

/-- Boolean `all` distributes over a pointwise conjunction. -/
theorem list_all_and {α : Type} (l : List α) (f g : α → Bool) :
    (l.all fun x => f x && g x) = (l.all f && l.all g) := by
  induction l with
  | nil => rfl
  | cons x xs ih =>
      simp only [List.all_cons, ih]
      cases f x <;> cases g x <;> cases xs.all f <;> cases xs.all g <;> rfl

/-- Component loop of validateKeyPattern succeeds exactly when every
component is non-empty and the claimed '$' rule holds. -/
theorem validateKeyParts_ok (parts : List (List Char)) :
    ∀ i, (validateKeyParts parts i).isOK =
      ((parts.all fun p => !p.isEmpty) && claimedPartsDollarOK parts i) := by
  induction parts with
  | nil => intro i; rfl
  | cons p rest ih =>
      intro i
      simp only [validateKeyParts, claimedPartsDollarOK, List.all_cons]
      by_cases h1 : p.isEmpty
      · simp [h1, Status.isOK]
      · by_cases h2 : p.head? = some '$'
        · by_cases h3 : i ≠ 0 ∧
              (p = "$db".data ∨ p = "$id".data ∨ p = "$ref".data)
          · rw [if_neg (by simpa using h1), if_neg (by simp [h2]),
              if_pos h3, ih]
            simp [h1, h2, h3.1, Bool.not_eq_true]
            rcases h3.2 with h | h | h <;> simp [h]
          · rw [if_neg (by simpa using h1), if_neg (by simp [h2]),
              if_neg h3]
            have hne : (p.head? != some '$') = false := by simp [h2]
            rcases not_and_or.mp h3 with h | h
            · rw [not_not] at h
              simp [Status.isOK, hne, h]
            · simp only [not_or] at h
              simp [Status.isOK, hne, h.1, h.2.1, h.2.2]
        · rw [if_neg (by simpa using h1), if_pos h2, ih]
          have hb : (p.head? != some '$') = true := bne_iff_ne.mpr h2
          simp [h1, hb]

/-- Field checks of one element succeed exactly when the claimed field rule
holds. -/
theorem validateKeyField_ok (e : BSONElement) :
    (validateKeyField e).isOK = claimedFieldOK e := by
  by_cases h1 : e.fieldName = "$**" ∧ e.valuestrsafe = "text"
  · obtain ⟨ha, hb⟩ := h1
    simp [validateKeyField, claimedFieldOK, ha, hb, IndexNames.TEXT,
      FieldRef.parts, splitDotted, Status.isOK_ok]
  · rw [claimedFieldOK, if_neg h1]
    simp only [validateKeyField, IndexNames.TEXT]
    by_cases h2 : (FieldRef.parts e.fieldName).length = 0
    · have hparts : FieldRef.parts e.fieldName = [] :=
        List.length_eq_zero.mp h2
      simp [h2, hparts, Status.isOK]
    · rw [if_neg h2, if_neg h1]
      by_cases h3 : e.fieldName = "_fts" ∧ e.valuestrsafe ≠ "text"
      · rw [if_pos h3]
        have hfts : (e.fieldName != "_fts" || e.valuestrsafe == "text")
            = false := by
          simp [h3.1]
          exact h3.2
        simp [Status.isOK, hfts]
      · rw [if_neg h3, validateKeyParts_ok]
        have hne : FieldRef.parts e.fieldName ≠ [] := by
          intro h
          exact h2 (by simp [h])
        have hni : (FieldRef.parts e.fieldName).isEmpty = false := by
          cases h : FieldRef.parts e.fieldName with
          | nil => exact absurd h hne
          | cons a l => rfl
        have hfts : (e.fieldName != "_fts" || e.valuestrsafe == "text")
            = true := by
          rcases not_and_or.mp h3 with h | h
          · simp [h]
          · rw [not_not] at h
            simp [h]
        simp [hni, hfts]

/-- One element of the loop succeeds exactly when the claimed value and
field rules hold for it. -/
theorem validateKeyElement_ok (p : String) (e : BSONElement) :
    (validateKeyElement p e).isOK = (elemValueOK p e && claimedFieldOK e) := by
  cases hv : e.value with
  | num nan zero =>
      cases nan <;> cases zero <;>
        simp [validateKeyElement, elemValueOK, hv, Status.isOK_error,
          validateKeyField_ok]
  | str s =>
      by_cases hp : p = s
      · simp [validateKeyElement, elemValueOK, hv, hp,
          validateKeyField_ok]
      · simp [validateKeyElement, elemValueOK, hv, hp, Status.isOK_error,
          beq_eq_false_iff_ne]
  | other t =>
      simp [validateKeyElement, elemValueOK, hv, Status.isOK_error]

/-- The element loop succeeds exactly when every element passes the claimed
value and field rules. -/
theorem validateKeyElements_ok (p : String) (elems : List BSONElement) :
    (validateKeyElements p elems).isOK =
      (elems.all fun e => elemValueOK p e && claimedFieldOK e) := by
  induction elems with
  | nil => rfl
  | cons e rest ih =>
      simp only [validateKeyElements, List.all_cons]
      by_cases h : (validateKeyElement p e).isOK
      · rw [if_pos h, ih, ← validateKeyElement_ok, h]
        simp
      · rw [if_neg h]
        have hb : (validateKeyElement p e).isOK = false := bool_eq_false h
        rw [← validateKeyElement_ok, hb]
        simp [hb]

/-- The validation and the amended predicate agree on every key pattern. -/
theorem validateKeyPattern_isOK_eq (key : BSONObj) :
    (validateKeyPattern key).isOK = amendedKeyPatternOK key := by
  rw [validateKeyPattern, amendedKeyPatternOK]
  by_cases hs : key.objsize > 2048
  · have hd : decide (key.objsize ≤ 2048) = false := by
      simp only [decide_eq_false_iff_not]
      omega
    rw [if_pos hs]
    simp [Status.isOK, hd]
  · have hd : decide (key.objsize ≤ 2048) = true := by
      simp only [decide_eq_true_eq]
      omega
    rw [if_neg hs]
    by_cases he : key.isEmpty
    · simp [he, Status.isOK]
    · rw [if_neg he]
      have heb : key.isEmpty = false := Bool.of_not_eq_true he
      by_cases hp : (IndexNames.findPluginName key).length ≠ 0 ∧
          IndexNames.isKnownName (IndexNames.findPluginName key) = false
      · rw [if_pos hp]
        have hne : (IndexNames.findPluginName key == "") = false := by
          simp only [beq_eq_false_iff_ne, ne_eq]
          intro h
          apply hp.1
          rw [h]
          rfl
        simp [Status.isOK, hd, heb, hne, hp.2]
      · rw [if_neg hp]
        have hguard : (IndexNames.findPluginName key == "" ||
            IndexNames.isKnownName (IndexNames.findPluginName key)) = true := by
          rcases not_and_or.mp hp with h | h
          · rw [not_not] at h
            have : IndexNames.findPluginName key = "" :=
              String.ext (List.length_eq_zero.mp h)
            simp [this]
          · simp only [Bool.not_eq_false] at h
            simp [h]
        rw [validateKeyElements_ok, list_all_and]
        simp [hd, heb, hguard, Bool.and_assoc]

/-- C5 (amended): validateKeyPattern returns OK exactly when the object is at
most 2048 bytes, non-empty, every element is a number that is neither NaN nor
0 or a string equal to the object's plugin name (the value of its first
string element, which must be a known index plugin name when non-empty), no
field path is empty or contains an empty component, and no path component
begins with '$' except the exact field name "$**" with value "text", the
components $db, $id, $ref at a non-first position, with the field name
"_fts" permitted only when its value is "text"; and every failure carries
the error code CannotCreateIndex. -/
theorem validateKeyPattern_spec (key : BSONObj) :
    ((validateKeyPattern key).isOK = true ↔ amendedKeyPatternOK key = true) ∧
    (validateKeyPattern key = Status.ok ∨
      ∃ r, validateKeyPattern key =
        Status.error ErrorCodes.CannotCreateIndex r) := by
  constructor
  · rw [validateKeyPattern_isOK_eq]
  · have hparts : ∀ (parts : List (List Char)) (i : Nat),
        validateKeyParts parts i = Status.ok ∨
          ∃ r, validateKeyParts parts i =
            Status.error ErrorCodes.CannotCreateIndex r := by
      intro parts
      induction parts with
      | nil => intro i; exact Or.inl rfl
      | cons p rest ih =>
          intro i
          rw [validateKeyParts]
          split_ifs with h1 h2 h3
          · exact Or.inr ⟨_, rfl⟩
          · exact ih (i + 1)
          · exact ih (i + 1)
          · exact Or.inr ⟨_, rfl⟩
    have hfield : ∀ e : BSONElement,
        validateKeyField e = Status.ok ∨
          ∃ r, validateKeyField e =
            Status.error ErrorCodes.CannotCreateIndex r := by
      intro e
      rw [validateKeyField]
      split_ifs with h1 h2 h3
      · exact Or.inr ⟨_, rfl⟩
      · exact Or.inl rfl
      · exact Or.inr ⟨_, rfl⟩
      · exact hparts _ 0
    have helem : ∀ (p : String) (e : BSONElement),
        validateKeyElement p e = Status.ok ∨
          ∃ r, validateKeyElement p e =
            Status.error ErrorCodes.CannotCreateIndex r := by
      intro p e
      cases hv : e.value with
      | num nan zero =>
          simp only [validateKeyElement, hv]
          cases nan
          · cases zero
            · rw [if_neg (by simp), if_neg (by simp)]
              exact hfield e
            · rw [if_neg (by simp), if_pos rfl]
              exact Or.inr ⟨_, rfl⟩
          · rw [if_pos rfl]
            exact Or.inr ⟨_, rfl⟩
      | str s =>
          simp only [validateKeyElement, hv]
          by_cases hp : p ≠ s
          · rw [if_pos hp]
            exact Or.inr ⟨_, rfl⟩
          · rw [if_neg hp]
            exact hfield e
      | other t =>
          simp only [validateKeyElement, hv]
          exact Or.inr ⟨_, rfl⟩
    have hloop : ∀ (p : String) (elems : List BSONElement),
        validateKeyElements p elems = Status.ok ∨
          ∃ r, validateKeyElements p elems =
            Status.error ErrorCodes.CannotCreateIndex r := by
      intro p elems
      induction elems with
      | nil => exact Or.inl rfl
      | cons e rest ih =>
          simp only [validateKeyElements]
          by_cases h : (validateKeyElement p e).isOK
          · rw [if_pos h]
            exact ih
          · rw [if_neg h]
            exact helem p e
    rw [validateKeyPattern]
    split_ifs with h1 h2
    · exact Or.inr ⟨_, rfl⟩
    · exact Or.inr ⟨_, rfl⟩
    · by_cases h3 : (IndexNames.findPluginName key).length ≠ 0 ∧
          IndexNames.isKnownName (IndexNames.findPluginName key) = false
      · simp only [if_pos h3]
        exact Or.inr ⟨_, rfl⟩
      · simp only [if_neg h3]
        exact hloop _ _

/-- C5 counterexample: on the key pattern with the single element "a" whose
value is the empty string, validateKeyPattern returns OK although the string
is not a known index plugin name, so the claimed equivalence fails at this
input. -/
theorem validateKeyPattern_claim_counterexample :
    validateKeyPattern ⟨13, [⟨"a", BSONValue.str ""⟩]⟩ = Status.ok ∧
    claimedKeyPatternOK ⟨13, [⟨"a", BSONValue.str ""⟩]⟩ = false := by
  constructor <;> rfl

/-! ### Claim C6 -/

/-- C6: the five work-unit type constants SWITCH, FLUSH, BLOOM, MERGE and
DROP are pairwise-distinct single bits contained in WT_LSM_WORK_MASK, the
FORCE modifier bit is disjoint from the mask, and masking the flags word
recovers the work type unchanged whether or not FORCE is set. -/
theorem lsm_work_flags_spec :
    WT_LSM_WORK_BLOOM = 2 ^ 0 ∧ WT_LSM_WORK_DROP = 2 ^ 1 ∧
    WT_LSM_WORK_FLUSH = 2 ^ 2 ∧ WT_LSM_WORK_MERGE = 2 ^ 3 ∧
    WT_LSM_WORK_SWITCH = 2 ^ 4 ∧
    lsmWorkTypes.Pairwise (fun a b => a ≠ b) ∧
    (∀ c ∈ lsmWorkTypes, c &&& WT_LSM_WORK_MASK = c) ∧
    WT_LSM_WORK_FORCE &&& WT_LSM_WORK_MASK = 0 ∧
    (∀ c ∈ lsmWorkTypes,
      (c ||| WT_LSM_WORK_FORCE) &&& WT_LSM_WORK_MASK = c) := by
  decide

/-! ### Claim C7 -/

/-- C7: the four chunk status bits BLOOM, MERGING, ONDISK and STABLE are
pairwise-distinct powers of two, and every combination of the four can be
stored in one flags word and read back independently. -/
theorem lsm_chunk_status_flags_spec :
    WT_LSM_CHUNK_BLOOM = 2 ^ 0 ∧ WT_LSM_CHUNK_MERGING = 2 ^ 1 ∧
    WT_LSM_CHUNK_ONDISK = 2 ^ 2 ∧ WT_LSM_CHUNK_STABLE = 2 ^ 3 ∧
    [WT_LSM_CHUNK_BLOOM, WT_LSM_CHUNK_MERGING, WT_LSM_CHUNK_ONDISK,
      WT_LSM_CHUNK_STABLE].Pairwise (fun a b => a ≠ b) ∧
    ∀ b1 b2 b3 b4 : Bool,
      ((cond b1 WT_LSM_CHUNK_BLOOM 0 ||| cond b2 WT_LSM_CHUNK_MERGING 0 |||
          cond b3 WT_LSM_CHUNK_ONDISK 0 ||| cond b4 WT_LSM_CHUNK_STABLE 0)
            &&& WT_LSM_CHUNK_BLOOM ≠ 0 ↔ b1 = true) ∧
      ((cond b1 WT_LSM_CHUNK_BLOOM 0 ||| cond b2 WT_LSM_CHUNK_MERGING 0 |||
          cond b3 WT_LSM_CHUNK_ONDISK 0 ||| cond b4 WT_LSM_CHUNK_STABLE 0)
            &&& WT_LSM_CHUNK_MERGING ≠ 0 ↔ b2 = true) ∧
      ((cond b1 WT_LSM_CHUNK_BLOOM 0 ||| cond b2 WT_LSM_CHUNK_MERGING 0 |||
          cond b3 WT_LSM_CHUNK_ONDISK 0 ||| cond b4 WT_LSM_CHUNK_STABLE 0)
            &&& WT_LSM_CHUNK_ONDISK ≠ 0 ↔ b3 = true) ∧
      ((cond b1 WT_LSM_CHUNK_BLOOM 0 ||| cond b2 WT_LSM_CHUNK_MERGING 0 |||
          cond b3 WT_LSM_CHUNK_ONDISK 0 ||| cond b4 WT_LSM_CHUNK_STABLE 0)
            &&& WT_LSM_CHUNK_STABLE ≠ 0 ↔ b4 = true) := by
  decide

/-! ### Claim C8 -/

/-- C8: the LSM cursor flag bits are exactly the eight named constants, they
are pairwise-distinct powers of two, every combination fits the 32-bit flags
field, and each flag is set and tested independently of the others. -/
theorem clsm_flags_spec :
    WT_CLSM_ACTIVE = 2 ^ 0 ∧ WT_CLSM_ITERATE_NEXT = 2 ^ 1 ∧
    WT_CLSM_ITERATE_PREV = 2 ^ 2 ∧ WT_CLSM_MERGE = 2 ^ 3 ∧
    WT_CLSM_MINOR_MERGE = 2 ^ 4 ∧ WT_CLSM_MULTIPLE = 2 ^ 5 ∧
    WT_CLSM_OPEN_READ = 2 ^ 6 ∧ WT_CLSM_OPEN_SNAPSHOT = 2 ^ 7 ∧
    clsmFlagList.Pairwise (fun a b => a ≠ b) ∧
    (∀ w ∈ clsmFlagList, w < 2 ^ 32) ∧
    ∀ f ∈ clsmFlagList, ∀ g ∈ clsmFlagList,
      (f ||| g) &&& f ≠ 0 ∧
      (f ≠ g → f &&& g = 0 ∧ (f ||| g) &&& g ≠ 0 ∧ f ||| g < 2 ^ 32) := by
  decide

/-! ### Claim C9 -/

/-- C9: WT_LSM_MAX_WORKERS equals 10, the per-tree worker arrays have exactly
WT_LSM_MAX_WORKERS slots, and no state of a tree can record more than 10
workers. -/
theorem lsm_max_workers_spec :
    WT_LSM_MAX_WORKERS = 10 ∧
    Fintype.card (Fin WT_LSM_MAX_WORKERS) = WT_LSM_MAX_WORKERS ∧
    ∀ t : WT_LSM_TREE, t.recordedWorkers ≤ WT_LSM_MAX_WORKERS := by
  refine ⟨rfl, by simp, ?_⟩
  intro t
  unfold WT_LSM_TREE.recordedWorkers
  calc (Finset.univ.filter fun i => (t.worker_sessions i).isSome).card
      ≤ (Finset.univ : Finset (Fin WT_LSM_MAX_WORKERS)).card :=
        Finset.card_filter_le _ _
    _ = WT_LSM_MAX_WORKERS := by simp

/-! ### Claim C10 -/

/-- C10: the LSM manager state consists of exactly three work queues, each
paired with its own dedicated lock, one condition variable, and the worker
bookkeeping fields: the manager type is in bijection with three
queue-and-lock pairs, a condition variable and the remaining counters. -/
theorem lsm_manager_shape :
    Nonempty (WT_LSM_MANAGER ≃
      ((List WT_LSM_WORK_UNIT × WT_SPINLOCK) ×
       (List WT_LSM_WORK_UNIT × WT_SPINLOCK) ×
       (List WT_LSM_WORK_UNIT × WT_SPINLOCK) ×
       WT_CONDVAR × Nat × Nat × List WT_LSM_WORKER_ARGS)) :=
  ⟨{ toFun := fun m => ((m.switchqh, m.switch_lock), (m.appqh, m.app_lock),
       (m.managerqh, m.manager_lock), m.work_cond, m.lsm_workers,
       m.lsm_workers_max, m.lsm_worker_cookies),
     invFun := fun x =>
       ⟨x.1.1, x.2.1.1, x.2.2.1.1, x.1.2, x.2.1.2, x.2.2.1.2, x.2.2.2.1,
        x.2.2.2.2.1, x.2.2.2.2.2.1, x.2.2.2.2.2.2⟩,
     left_inv := fun _ => rfl,
     right_inv := fun _ => rfl }⟩

/-! ### Claim C1 -/

/-- Records visible at snapshot T in a well-formed chunk are records of the
chunk whose writer committed at or before T. -/
theorem mem_visibleEntries {T : Nat} {c : SnapChunk} {e : LsmEntry}
    (hwf : chunkWF c) (h : e ∈ visibleEntries T c) :
    e ∈ c.entries ∧ e.txn ≤ T := by
  unfold visibleEntries at h
  by_cases hs : c.switch_txn ≤ T
  · rw [if_pos hs] at h
    exact ⟨h, le_trans (hwf e h) hs⟩
  · rw [if_neg hs] at h
    rcases List.mem_filter.mp h with ⟨h1, h2⟩
    exact ⟨h1, by simpa using h2⟩

/-- Point lookup obeys snapshot isolation: a returned value was written by a
transaction at or before the snapshot. -/
theorem clsmSearch_spec {T : Nat} {chunks : List SnapChunk}
    (hwf : ∀ c ∈ chunks, chunkWF c) {k v : Nat}
    (h : clsmSearch T chunks k = some v) :
    ∃ c ∈ chunks, ∃ e ∈ c.entries, e.txn ≤ T ∧ e.key = k ∧
      e.value = some v := by
  unfold clsmSearch at h
  cases hf : chunks.reverse.findSome?
      (fun c => (visibleEntries T c).find? fun e => e.key == k) with
  | none => rw [hf] at h; exact Option.noConfusion h
  | some e =>
      rw [hf] at h
      have hval : e.value = some v := h
      obtain ⟨c, hc, hfc⟩ := List.exists_of_findSome?_eq_some hf
      have hcm : c ∈ chunks := List.mem_reverse.mp hc
      have hmem := List.mem_of_find?_eq_some hfc
      have hkey := List.find?_some hfc
      obtain ⟨hce, htxn⟩ := mem_visibleEntries (hwf c hcm) hmem
      exact ⟨c, hcm, e, hce, htxn, by simpa using hkey, hval⟩

/-- Forward iteration obeys snapshot isolation, for any fuel. -/
theorem clsmNextGo_spec {T : Nat} {chunks : List SnapChunk}
    (hwf : ∀ c ∈ chunks, chunkWF c) :
    ∀ fuel k k2 v, clsmNextGo T chunks fuel k = some (k2, v) →
      ∃ c ∈ chunks, ∃ e ∈ c.entries, e.txn ≤ T ∧ e.key = k2 ∧
        e.value = some v := by
  intro fuel
  induction fuel with
  | zero => intro k k2 v h; exact Option.noConfusion h
  | succ n ih =>
      intro k k2 v h
      simp only [clsmNextGo] at h
      cases hm : minAbove T chunks k with
      | none =>
          rw [hm] at h
          exact Option.noConfusion h
      | some kk =>
          simp only [hm] at h
          cases hs : clsmSearch T chunks kk with
          | none =>
              simp only [hs] at h
              exact ih kk k2 v h
          | some v2 =>
              simp only [hs, Option.some.injEq, Prod.mk.injEq] at h
              obtain ⟨hk, hv⟩ := h
              subst hk
              subst hv
              exact clsmSearch_spec hwf hs

/-- Backward iteration obeys snapshot isolation, for any fuel. -/
theorem clsmPrevGo_spec {T : Nat} {chunks : List SnapChunk}
    (hwf : ∀ c ∈ chunks, chunkWF c) :
    ∀ fuel k k2 v, clsmPrevGo T chunks fuel k = some (k2, v) →
      ∃ c ∈ chunks, ∃ e ∈ c.entries, e.txn ≤ T ∧ e.key = k2 ∧
        e.value = some v := by
  intro fuel
  induction fuel with
  | zero => intro k k2 v h; exact Option.noConfusion h
  | succ n ih =>
      intro k k2 v h
      simp only [clsmPrevGo] at h
      cases hm : maxBelow T chunks k with
      | none =>
          rw [hm] at h
          exact Option.noConfusion h
      | some kk =>
          simp only [hm] at h
          cases hs : clsmSearch T chunks kk with
          | none =>
              simp only [hs] at h
              exact ih kk k2 v h
          | some v2 =>
              simp only [hs, Option.some.injEq, Prod.mk.injEq] at h
              obtain ⟨hk, hv⟩ := h
              subst hk
              subst hv
              exact clsmSearch_spec hwf hs

/-- C1: for every cursor opened with snapshot transaction id T over chunks
whose switch_txn bounds their writers, no value whose writing transaction id
is greater than T is ever returned by search, next or prev, regardless of
which chunk the value resides in: every value returned comes from a record
written at or before T. -/
theorem clsm_snapshot_isolation (T : Nat) (chunks : List SnapChunk)
    (hwf : ∀ c ∈ chunks, chunkWF c) :
    (∀ k v, clsmSearch T chunks k = some v →
      ∃ c ∈ chunks, ∃ e ∈ c.entries, e.txn ≤ T ∧ e.key = k ∧
        e.value = some v) ∧
    (∀ k k2 v, clsmNext T chunks k = some (k2, v) →
      ∃ c ∈ chunks, ∃ e ∈ c.entries, e.txn ≤ T ∧ e.key = k2 ∧
        e.value = some v) ∧
    (∀ k k2 v, clsmPrev T chunks k = some (k2, v) →
      ∃ c ∈ chunks, ∃ e ∈ c.entries, e.txn ≤ T ∧ e.key = k2 ∧
        e.value = some v) :=
  ⟨fun _ _ h => clsmSearch_spec hwf h,
   fun _ k2 v h => clsmNextGo_spec hwf _ _ k2 v h,
   fun _ k2 v h => clsmPrevGo_spec hwf _ _ k2 v h⟩

/-- C1 witness: on the concrete two-chunk store, a search at snapshot 5
returns 42 and the theorem locates its record below the snapshot. -/
theorem clsm_snapshot_isolation_witness :
    ∃ c ∈ snapDemoChunks, ∃ e ∈ c.entries, e.txn ≤ 5 ∧ e.key = 7 ∧
      e.value = some 42 :=
  (clsm_snapshot_isolation 5 snapDemoChunks (by decide)).1 7 42 (by decide)

/-! ### Claim C2 -/

/-- Every member is bounded by the max-fold. -/
theorem le_foldr_max (l : List Nat) : ∀ a ∈ l, a ≤ l.foldr Nat.max 0 := by
  induction l with
  | nil => intro a ha; exact absurd ha (List.not_mem_nil a)
  | cons x xs ih =>
      intro a ha
      rcases List.mem_cons.mp ha with h | h
      · subst h
        exact Nat.le_max_left _ _
      · exact Nat.le_trans (ih a h) (Nat.le_max_right _ _)

/-- The max-fold of a non-empty list is attained by a member. -/
theorem foldr_max_mem (l : List Nat) (h : l ≠ []) :
    l.foldr Nat.max 0 ∈ l := by
  induction l with
  | nil => exact absurd rfl h
  | cons x xs ih =>
      cases hxs : xs with
      | nil =>
          subst hxs
          have hx : List.foldr Nat.max 0 [x] = x := Nat.max_zero x
          rw [hx]
          exact List.mem_cons_self _ _
      | cons y ys =>
          rw [← hxs]
          rcases Nat.le_total x (xs.foldr Nat.max 0) with hle | hle
          · have hm : List.foldr Nat.max 0 (x :: xs) =
                List.foldr Nat.max 0 xs := Nat.max_eq_right hle
            rw [hm]
            exact List.mem_cons_of_mem _ (ih (by simp [hxs]))
          · have hm : List.foldr Nat.max 0 (x :: xs) = x :=
              Nat.max_eq_left hle
            rw [hm]
            exact List.mem_cons_self _ _

/-- C2 (amended): at every reachable state, a merge of a valid contiguous
range of the active array produces one output chunk, placed at the range's
position with a freshly allocated id, whose generation is strictly greater
than every input generation and equal to one input generation plus one —
that is, max over the inputs plus 1.  (Generations across the active array
need not be monotone; see the counterexample.) -/
theorem merge_output_generation (s : TreeState) (_hs : TreeReachable s)
    (i len : Nat) (hlen : 2 ≤ len) (hrange : i + len ≤ s.chunks.length) :
    (applyMerge s i len).chunks[i]? =
      some ⟨s.last + 1, mergeOutputGen ((s.chunks.drop i).take len)⟩ ∧
    (∀ c ∈ (s.chunks.drop i).take len,
      c.generation < mergeOutputGen ((s.chunks.drop i).take len)) ∧
    ∃ c ∈ (s.chunks.drop i).take len,
      mergeOutputGen ((s.chunks.drop i).take len) = c.generation + 1 := by
  have hti : (s.chunks.take i).length = i := by
    rw [List.length_take]
    omega
  refine ⟨?_, ?_, ?_⟩
  · show (s.chunks.take i ++
        [⟨s.last + 1, mergeOutputGen ((s.chunks.drop i).take len)⟩] ++
        s.chunks.drop (i + len))[i]? = _
    rw [List.append_assoc, List.getElem?_append_right (by omega), hti]
    simp
  · intro c hc
    unfold mergeOutputGen
    have hmm : c.generation ∈
        ((s.chunks.drop i).take len).map MetaChunk.generation :=
      List.mem_map_of_mem _ hc
    have := le_foldr_max _ _ hmm
    omega
  · have hlen2 : ((s.chunks.drop i).take len).length = len := by
      rw [List.length_take, List.length_drop]
      omega
    have hne : ((s.chunks.drop i).take len).map MetaChunk.generation ≠ [] := by
      intro h
      have hl := congrArg List.length h
      simp only [List.length_map, hlen2, List.length_nil] at hl
      omega
    have hmem := foldr_max_mem _ hne
    obtain ⟨c, hc, hgen⟩ := List.mem_map.mp hmem
    refine ⟨c, hc, ?_⟩
    unfold mergeOutputGen
    rw [hgen]

/-- C2 witness: merging the two generation-0 chunks of a concrete reachable
state yields output generation 1 = max(0, 0) + 1. -/
theorem merge_output_generation_witness :
    ∃ c ∈ (((⟨[⟨1, 0⟩, ⟨2, 0⟩], 2⟩ : TreeState).chunks.drop 0).take 2),
      mergeOutputGen
          (((⟨[⟨1, 0⟩, ⟨2, 0⟩], 2⟩ : TreeState).chunks.drop 0).take 2) =
        c.generation + 1 :=
  (merge_output_generation ⟨[⟨1, 0⟩, ⟨2, 0⟩], 2⟩
      (TreeReachable.step
        (TreeReachable.step TreeReachable.init (TreeStep.switch _))
        (TreeStep.switch _))
      0 2 (by decide) (by decide)).2.2

/-- C2 counterexample: the state reached by switch, switch, merge, switch
has active array [(id 3, generation 1), (id 4, generation 0)], so adjacent
generations decrease and the claimed monotonicity fails on a reachable
state. -/
theorem generation_monotone_counterexample :
    TreeReachable ⟨[⟨3, 1⟩, ⟨4, 0⟩], 4⟩ ∧
      ¬ genMonotone ⟨[⟨3, 1⟩, ⟨4, 0⟩], 4⟩ := by
  constructor
  · have h0 : TreeReachable ⟨[], 0⟩ := TreeReachable.init
    have h1 : TreeReachable ⟨[⟨1, 0⟩], 1⟩ := h0.step (TreeStep.switch _)
    have h2 : TreeReachable ⟨[⟨1, 0⟩, ⟨2, 0⟩], 2⟩ :=
      h1.step (TreeStep.switch _)
    have h3 : TreeReachable ⟨[⟨3, 1⟩], 3⟩ :=
      h2.step (TreeStep.merge _ 0 2 (by omega) (by simp))
    exact h3.step (TreeStep.switch _)
  · intro h
    have h1 := (List.chain'_cons.mp h).1
    exact absurd h1 (by decide)

end Mongo
